import Mathlib

/-!
Verification development for the STIB real-time arrivals dashboard
(`stib.py`).  The Python source is shallowly embedded: machine time
instants are modelled as integer epoch seconds (timezone conversion with
`astimezone` does not change the instant), results of the external JSON
and timestamp decoding libraries are modelled as `Option` values (`none`
marks a decoding failure such as the literal payload string "not json"),
and the pandas data frame of the stop catalog is modelled as a list of
rows whose fields are `Option String` (`none` marks a missing / NaN
field, which `dropna` removes).
-/

namespace Stib

/-- Destination labels of a passing-time entry, keyed by language; only
the French key is read by the program. -/
structure Dest where
  fr : Option String
deriving DecidableEq

/-- One passing-time entry of a raw record.  `expectedArrivalTime` is
the result of parsing the ISO-8601 timestamp with the external date
library: `some t` is the absolute instant in epoch seconds, `none` marks
a timestamp that fails to parse (the code skips the entry).
`destination` is `none` when the field is absent. -/
structure RawPT where
  expectedArrivalTime : Option Int
  destination : Option Dest
deriving DecidableEq

/-- A raw API record.  `passingtimes` is the result of JSON-decoding
the embedded payload string: `none` marks a payload that fails to
decode (for example the literal string "not json"); the code skips the
whole record in that case. -/
structure RawRecord where
  pointid : String
  lineid : String
  passingtimes : Option (List RawPT)
deriving DecidableEq

/-- The value stored per stop name by `load_stops`: the accumulated
point identifiers and the accumulated coordinate fields (each
coordinate field is kept as its comma-split components; the float
conversion performed by the external `float` routine is not modelled,
none of the verified claims depends on the numeric values). -/
structure StopRec where
  IDs : List String
  Coordinates : List (List String)
deriving DecidableEq

/-- One row of the semicolon-delimited stops table, restricted to the
three columns the program selects.  A `none` field is a missing (NaN)
value, removed by `dropna`. -/
structure CsvRow where
  id : Option String
  name : Option String
  coordinates : Option String
deriving DecidableEq

/-- Python `str.isnumeric` restricted to the decimal digits that occur
in the identifier column. -/
def isNumericStr (s : String) : Bool :=
  !s.isEmpty && s.data.all Char.isDigit

/-- The `dropna` step: keep a row only when all three selected columns
are present. -/
def keepRow (r : CsvRow) : Bool :=
  r.id.isSome && r.name.isSome && r.coordinates.isSome

/-- The numeric-identifier filter `df[df.ID.astype(str).str.isnumeric()]`. -/
def rowNumeric (r : CsvRow) : Bool :=
  isNumericStr (r.id.getD "")

/-- Helper for the comma split: accumulate the current field and cut at
every comma. -/
def splitCommaAux : List Char → List Char → List (List Char)
  | [], acc => [acc.reverse]
  | c :: cs, acc =>
    if c = ',' then acc.reverse :: splitCommaAux cs [] else splitCommaAux cs (c :: acc)

/-- Python `x.split(',')` applied to a coordinates field. -/
def splitCoords (s : String) : List String :=
  (splitCommaAux s.data []).map String.mk

/-- One iteration of the `load_stops` accumulation loop: append the
row's identifier and coordinates to the entry of `name`, creating the
entry (at the end, matching Python dict insertion order) when the name
is new. -/
def dictAppend (d : List (String × StopRec)) (name pid : String) (coords : List String) :
    List (String × StopRec) :=
  match d with
  | [] => [(name, ⟨[pid], [coords]⟩)]
  | (n, sr) :: rest =>
    if n = name then (n, ⟨sr.IDs ++ [pid], sr.Coordinates ++ [coords]⟩) :: rest
    else (n, sr) :: dictAppend rest name pid coords

/-- The function `load_stops`: select the three columns, `dropna`, keep numeric
identifiers, then accumulate rows into a name-keyed dictionary. -/
def load_stops (rows : List CsvRow) : List (String × StopRec) :=
  ((rows.filter keepRow).filter rowNumeric).foldl
    (fun d r => dictAppend d (r.name.getD "") (r.id.getD "") (splitCoords (r.coordinates.getD "")))
    []

/-- Dictionary lookup on the association list built by `load_stops`. -/
def dictFind (d : List (String × StopRec)) (n : String) : Option StopRec :=
  match d with
  | [] => none
  | (m, sr) :: rest => if m = n then some sr else dictFind rest n

/-- All point identifiers of a catalog, in catalog order. -/
def allIds (d : List (String × StopRec)) : List String :=
  (d.map (fun e => e.2.IDs)).flatten

/-- The kept input rows: present fields and a numeric identifier. -/
def keptRows (rows : List CsvRow) : List CsvRow :=
  (rows.filter keepRow).filter rowNumeric

/-- Identifier of a kept row. -/
def rowPid (r : CsvRow) : String :=
  r.id.getD ""

/-- Split coordinates of a kept row. -/
def rowCoords (r : CsvRow) : List String :=
  splitCoords (r.coordinates.getD "")

/-- The kept rows contributing to a given stop name. -/
def contribRows (rows : List CsvRow) (name : String) : List CsvRow :=
  (keptRows rows).filter (fun r => r.name.getD "" == name)

/-- The fixed auto-refresh interval (seconds). -/
def REFRESH_SECONDS : Int := 30

/-- The polling session state: the cached raw records and the instant
of the last accepted fetch. -/
structure PollState where
  raw_results : List RawRecord
  last_fetch_time : Option Int
deriving DecidableEq

/-- The change-suppression step of the auto-refresh branch: the
condition compares the two record lists as sets (the Python code
compares sets of `json.dumps` serializations, and the serialization is
a deterministic injective function of the record, modelled as the
identity); on a difference both the cache and the fetch instant are
replaced, otherwise the state is untouched. -/
def absorb (st : PollState) (new_data : List RawRecord) (now : Int) : PollState :=
  if new_data.toFinset ≠ st.raw_results.toFinset then ⟨new_data, some now⟩ else st

/-- The auto-refresh branch of a tick: fetch and absorb when no fetch
ever succeeded or the last one is older than `REFRESH_SECONDS`. -/
def autoTick (st : PollState) (fetched : List RawRecord) (now : Int) : PollState :=
  match st.last_fetch_time with
  | none => absorb st fetched now
  | some t => if now - t > REFRESH_SECONDS then absorb st fetched now else st

/-- The Refresh-Now button handler: store the fetched records and set
the fetch instant, unconditionally. -/
def manualRefresh (st : PollState) (fetched : List RawRecord) (now : Int) : PollState :=
  { raw_results := fetched, last_fetch_time := some now }

/-- A full tick on which the button was pressed: the manual handler
runs first, then the auto-refresh branch of the same script run. -/
def buttonThenAuto (st : PollState) (fetchedManual fetchedAuto : List RawRecord) (now : Int) :
    PollState :=
  autoTick (manualRefresh st fetchedManual now) fetchedAuto now

/-- Stop-name resolution: first catalog entry whose identifier list
contains the point identifier, falling back to the raw point identifier. -/
def resolveStop (stop_dict : List (String × StopRec)) (pointid : String) : String :=
  match stop_dict.find? (fun e => e.2.IDs.contains pointid) with
  | some e => e.1
  | none => pointid

/-- The "Xm Ys" time-left string (Python floor division and modulus). -/
def fmtWait (wait : Int) : String :=
  toString (wait.fdiv 60) ++ "m " ++ toString (wait.fmod 60) ++ "s"

/-- A display row appended to the grouped dictionary.  The strftime
rendering of the arrival instant is external presentation and the
instant itself is carried instead. -/
structure Row where
  stop : String
  line : String
  destination : String
  expectedArrival : Int
  timeLeft : String
  secondsLeft : Int
deriving DecidableEq

/-- The destination fallback chain of the code. -/
def destFr (pt : RawPT) : String :=
  match pt.destination with
  | none => "Unknown"
  | some d => d.fr.getD "Unknown"

/-- Processing of one passing-time entry: skip on timestamp parse
failure, apply the window filter, then the (dead) re-examination of the
wait bucket, and emit the row.  `none` is a skipped entry. -/
def processPT (stop_dict : List (String × StopRec)) (now max_seconds : Int)
    (pointid line : String) (pt : RawPT) : Option Row :=
  match pt.expectedArrivalTime with
  | none => none
  | some arrival =>
    let wait := arrival - now
    if wait > max_seconds ∨ wait ≤ 0 then none
    else
      let destination := destFr pt
      let stop_name := resolveStop stop_dict pointid
      if wait ≤ 0 ∧ wait ≥ -30 then
        some ⟨stop_name, line, destination, arrival, "⬇⬇", wait⟩
      else if wait > max_seconds ∨ wait ≤ -30 then
        none
      else
        some ⟨stop_name, line, destination, arrival, fmtWait wait, wait⟩

/-- Processing of one raw record: skip it whole on payload decode
failure, otherwise process each passing-time entry. -/
def processRecord (stop_dict : List (String × StopRec)) (now max_seconds : Int)
    (r : RawRecord) : List Row :=
  match r.passingtimes with
  | none => []
  | some pts => pts.filterMap (processPT stop_dict now max_seconds r.pointid r.lineid)

/-- The whole per-tick processing loop over the cached raw records; the
resulting flat row list, keyed by the `stop` field, is the grouped
dictionary (`setdefault` + `append` preserves encounter order per key). -/
def processAll (stop_dict : List (String × StopRec)) (now max_seconds : Int)
    (records : List RawRecord) : List Row :=
  records.flatMap (processRecord stop_dict now max_seconds)

/-- Python `grouped.get(stop, [])`: the rows of one stop in encounter order. -/
def groupedGet (rows : List Row) (stop : String) : List Row :=
  rows.filter (fun r => decide (r.stop = stop))

/-- Row comparison used by the sort on the "Seconds Left" column. -/
def rowLe (a b : Row) : Prop :=
  a.secondsLeft ≤ b.secondsLeft

instance : DecidableRel rowLe :=
  fun a b => inferInstanceAs (Decidable (a.secondsLeft ≤ b.secondsLeft))

instance : IsTotal Row rowLe :=
  ⟨fun a b => le_total a.secondsLeft b.secondsLeft⟩

instance : IsTrans Row rowLe :=
  ⟨fun _ _ _ hab hbc => le_trans hab hbc⟩

/-- The table shown for one selected stop: its grouped rows, restricted
to the selected lines, sorted by seconds left. -/
def presentStop (stop_dict : List (String × StopRec)) (now max_seconds : Int)
    (records : List RawRecord) (selected_lines : List String) (stop : String) : List Row :=
  List.insertionSort rowLe
    ((groupedGet (processAll stop_dict now max_seconds records) stop).filter
      (fun a => decide (a.line ∈ selected_lines)))

/-- The Presenter output: one table per selected stop, in selection
order. -/
def present (stop_dict : List (String × StopRec)) (now max_seconds : Int)
    (records : List RawRecord) (selected_stops selected_lines : List String) :
    List (String × List Row) :=
  selected_stops.map (fun s => (s, presentStop stop_dict now max_seconds records selected_lines s))

/-- All rows displayed on a tick, across the selected stops. -/
def displayedRows (stop_dict : List (String × StopRec)) (now max_seconds : Int)
    (records : List RawRecord) (selected_stops selected_lines : List String) : List Row :=
  (present stop_dict now max_seconds records selected_stops selected_lines).flatMap
    (fun e => e.2)

/-- The row built by the processing loop for one passing-time entry
whose timestamp parsed to `arrival`. -/
def mkRow (stop_dict : List (String × StopRec)) (now : Int) (pointid line : String)
    (pt : RawPT) (arrival : Int) : Row :=
  ⟨resolveStop stop_dict pointid, line, destFr pt, arrival,
    fmtWait (arrival - now), arrival - now⟩

/-- Lower-case hexadecimal digit. -/
def hexDigitChar (n : Nat) : Char :=
  if n < 10 then Char.ofNat (48 + n) else Char.ofNat (87 + n)

/-- Two-digit lower-case hexadecimal rendering of a byte, as produced
by the Python format specification `02x`. -/
def hex2 (n : Nat) : String :=
  String.mk [hexDigitChar (n / 16), hexDigitChar (n % 16)]

/-- The `colorsys.hsv_to_rgb` algorithm over exact rationals (the
Python floats are modelled by exact arithmetic).  For the reachable
inputs `0 ≤ h < 1` the truncation `int(h*6.0)` is the floor and the
final arm is the `i = 5` case. -/
def hsv_to_rgb (h s v : ℚ) : ℚ × ℚ × ℚ :=
  if s = 0 then (v, v, v)
  else
    let i : ℤ := ⌊h * 6⌋
    let f : ℚ := h * 6 - (i : ℚ)
    let p : ℚ := v * (1 - s)
    let q : ℚ := v * (1 - s * f)
    let t : ℚ := v * (1 - s * (1 - f))
    let im := i % 6
    if im = 0 then (v, t, p)
    else if im = 1 then (q, v, p)
    else if im = 2 then (p, v, t)
    else if im = 3 then (p, q, v)
    else if im = 4 then (t, p, q)
    else (v, p, q)

/-- The function `line_color_soft`.  The MD5 step is external library code: the
value `int(hashlib.md5(line_id.encode()).hexdigest()[:8], 16)` is a
fixed deterministic function of the identifier's textual form, passed
here as the parameter `digest8`.  The rest follows the source: reduce
the seed to a hue in [0, 360) and then to [0, 1), fix saturation 0.75
and value 0.40, convert HSV to RGB and format the hex triplet. -/
def line_color_soft (digest8 : String → Nat) (line_id : String) : String :=
  let seed := digest8 line_id
  let h : ℚ := ((seed % 360 : Nat) : ℚ) / 360
  let s : ℚ := 3 / 4
  let v : ℚ := 2 / 5
  let rgb := hsv_to_rgb h s v
  "#" ++ hex2 (⌊rgb.1 * 255⌋).toNat ++ hex2 (⌊rgb.2.1 * 255⌋).toNat
    ++ hex2 (⌊rgb.2.2 * 255⌋).toNat

/-- Extension of an optional catalog entry by one row's data, as the
accumulation loop performs it. -/
def extendRec (o : Option StopRec) (pid : String) (c : List String) : StopRec :=
  match o with
  | none => ⟨[pid], [c]⟩
  | some sr => ⟨sr.IDs ++ [pid], sr.Coordinates ++ [c]⟩

/-- Iterated extension by a list of (identifier, coordinates) pairs. -/
def accRec (o : Option StopRec) (l : List (String × List String)) : Option StopRec :=
  match l with
  | [] => o
  | (pid, c) :: t => accRec (some (extendRec o pid c)) t

/-- The (identifier, coordinates) pairs a row list contributes to one
stop name. -/
def rowPairs (rs : List CsvRow) (name : String) : List (String × List String) :=
  (rs.filter (fun r => r.name.getD "" == name)).map (fun r => (rowPid r, rowCoords r))

/-- The single step of the accumulation loop, as a named function. -/
def loadStep (d : List (String × StopRec)) (r : CsvRow) : List (String × StopRec) :=
  dictAppend d (r.name.getD "") (r.id.getD "") (splitCoords (r.coordinates.getD ""))

theorem load_stops_eq_foldl (rows : List CsvRow) :
    load_stops rows = (keptRows rows).foldl loadStep [] := rfl

theorem dictFind_dictAppend (d : List (String × StopRec)) (nm pid : String)
    (c : List String) (n : String) :
    dictFind (dictAppend d nm pid c) n =
      if n = nm then some (extendRec (dictFind d nm) pid c) else dictFind d n := by
  induction d with
  | nil =>
    by_cases h : n = nm
    · subst h
      simp [dictAppend, dictFind, extendRec]
    · simp [dictAppend, dictFind, h, Ne.symm h]
  | cons e rest ih =>
    obtain ⟨m, sr⟩ := e
    by_cases hm : m = nm
    · subst hm
      by_cases hn : n = m
      · subst hn
        simp [dictAppend, dictFind, extendRec]
      · simp [dictAppend, dictFind, hn, Ne.symm hn]
    · by_cases hn : n = m
      · subst hn
        simp [dictAppend, dictFind, hm]
      · simp [dictAppend, dictFind, hm, hn, Ne.symm hn, ih]

theorem dictFind_foldl (rs : List CsvRow) (d : List (String × StopRec)) (name : String) :
    dictFind (rs.foldl loadStep d) name = accRec (dictFind d name) (rowPairs rs name) := by
  induction rs generalizing d with
  | nil => simp [rowPairs, accRec]
  | cons r t ih =>
    rw [List.foldl_cons, ih]
    by_cases h : r.name.getD "" = name
    · have hpairs : rowPairs (r :: t) name = (rowPid r, rowCoords r) :: rowPairs t name := by
        simp [rowPairs, List.filter_cons, h]
      rw [hpairs]
      have hfind : dictFind (loadStep d r) name
          = some (extendRec (dictFind d name) (rowPid r) (rowCoords r)) := by
        show dictFind (dictAppend d (r.name.getD "") (r.id.getD "")
          (splitCoords (r.coordinates.getD ""))) name = _
        rw [dictFind_dictAppend, if_pos h.symm, h]
        rfl
      rw [hfind]
      rfl
    · have hpairs : rowPairs (r :: t) name = rowPairs t name := by
        simp [rowPairs, List.filter_cons, h]
      rw [hpairs]
      have hfind : dictFind (loadStep d r) name = dictFind d name := by
        show dictFind (dictAppend d (r.name.getD "") (r.id.getD "")
          (splitCoords (r.coordinates.getD ""))) name = _
        rw [dictFind_dictAppend, if_neg (fun hc => h hc.symm)]
      rw [hfind]

theorem accRec_some (sr : StopRec) (l : List (String × List String)) :
    accRec (some sr) l = some ⟨sr.IDs ++ l.map Prod.fst, sr.Coordinates ++ l.map Prod.snd⟩ := by
  induction l generalizing sr with
  | nil => cases sr; simp [accRec]
  | cons p t ih =>
    obtain ⟨pid, c⟩ := p
    cases sr
    simp [accRec, extendRec, ih, List.append_assoc]

theorem accRec_none (l : List (String × List String)) :
    accRec none l =
      if l = [] then none else some ⟨l.map Prod.fst, l.map Prod.snd⟩ := by
  cases l with
  | nil => rfl
  | cons p t =>
    obtain ⟨pid, c⟩ := p
    simp [accRec, extendRec, accRec_some]

/-- Claim C5: `load_stops` keeps only input rows whose name, coordinate
field and identifier are present and whose identifier is numeric (a row
failing any of these is silently discarded and leaves the catalog
unchanged), and merges all kept rows sharing one name into a single
record whose identifier and coordinate lists accumulate those rows'
values in order rather than being overwritten. -/
theorem load_stops_filter_merge (rows : List CsvRow) (name : String) :
    (dictFind (load_stops rows) name =
      if contribRows rows name = [] then none
      else some ⟨(contribRows rows name).map rowPid, (contribRows rows name).map rowCoords⟩) ∧
    (∀ bad : CsvRow, keepRow bad = false ∨ rowNumeric bad = false →
      load_stops (bad :: rows) = load_stops rows) := by
  constructor
  · rw [load_stops_eq_foldl, dictFind_foldl]
    show accRec none (rowPairs (keptRows rows) name) = _
    have hrp : rowPairs (keptRows rows) name
        = (contribRows rows name).map (fun r => (rowPid r, rowCoords r)) := rfl
    rw [hrp, accRec_none, List.map_map, List.map_map]
    by_cases hB : contribRows rows name = []
    · simp [hB]
    · rw [if_neg (fun hc => hB (List.map_eq_nil_iff.mp hc)), if_neg hB]
      rfl
  · intro bad hbad
    rw [load_stops_eq_foldl, load_stops_eq_foldl]
    rcases hbad with hk | hn
    · have : keptRows (bad :: rows) = keptRows rows := by
        simp [keptRows, List.filter_cons, hk]
      rw [this]
    · have : keptRows (bad :: rows) = keptRows rows := by
        by_cases hk : keepRow bad
        · simp [keptRows, List.filter_cons, hk, hn]
        · simp [keptRows, List.filter_cons, hk]
      rw [this]

/-- Sample rows for the C5 witness: a row with a non-numeric identifier
and a row with a missing identifier are discarded; the two kept rows
named "A" are merged in order. -/
def c5rows : List CsvRow :=
  [⟨some "1", some "A", some "50,4"⟩,
   ⟨some "xx", some "B", some "0,0"⟩,
   ⟨none, some "B", some "0,0"⟩,
   ⟨some "2", some "A", some "51,5"⟩]

theorem load_stops_filter_merge_witness :
    load_stops (⟨some "x9", some "C", some "0,0"⟩ :: c5rows) = load_stops c5rows ∧
    dictFind (load_stops c5rows) "A" = some ⟨["1", "2"], [["50", "4"], ["51", "5"]]⟩ := by
  constructor
  · exact (load_stops_filter_merge c5rows "A").2 ⟨some "x9", some "C", some "0,0"⟩
      (Or.inr (by decide))
  · have h := (load_stops_filter_merge c5rows "A").1
    rw [h]
    decide

/-- Rows exhibiting the C4 counterexample: the same numeric identifier
occurs under two different stop names, and `load_stops` records it
under both. -/
def c4rows : List CsvRow :=
  [⟨some "1", some "A", some "0,0"⟩, ⟨some "1", some "B", some "0,0"⟩]

/-- Claim C4 counterexample: `load_stops` does not enforce identifier
uniqueness — on an input whose rows repeat identifier "1" under the two
names "A" and "B", the identifier ends up in both records' lists, so it
does not appear in exactly one StopRecord's identifier list. -/
theorem load_stops_unique_cex :
    (allIds (load_stops c4rows)).count "1" = 2 ∧
    dictFind (load_stops c4rows) "A" = some ⟨["1"], [["0", "0"]]⟩ ∧
    dictFind (load_stops c4rows) "B" = some ⟨["1"], [["0", "0"]]⟩ := by decide

theorem allIds_cons (m : String) (sr : StopRec) (rest : List (String × StopRec)) :
    allIds ((m, sr) :: rest) = sr.IDs ++ allIds rest := by
  simp [allIds]

theorem allIds_dictAppend (d : List (String × StopRec)) (nm pid : String)
    (c : List String) :
    (allIds (dictAppend d nm pid c)).Perm (pid :: allIds d) := by
  induction d with
  | nil => simp [allIds, dictAppend]
  | cons e rest ih =>
    obtain ⟨m, sr⟩ := e
    by_cases h : m = nm
    · subst h
      have hd : dictAppend ((m, sr) :: rest) m pid c
          = (m, ⟨sr.IDs ++ [pid], sr.Coordinates ++ [c]⟩) :: rest := by
        simp [dictAppend]
      rw [hd, allIds_cons, allIds_cons, List.append_assoc]
      exact List.perm_middle
    · have hd : dictAppend ((m, sr) :: rest) nm pid c
          = (m, sr) :: dictAppend rest nm pid c := by
        simp [dictAppend, h]
      rw [hd, allIds_cons, allIds_cons]
      exact (ih.append_left sr.IDs).trans List.perm_middle

theorem allIds_foldl (rs : List CsvRow) (d : List (String × StopRec)) :
    (allIds (rs.foldl loadStep d)).Perm (allIds d ++ rs.map rowPid) := by
  induction rs generalizing d with
  | nil => simp
  | cons r t ih =>
    rw [List.foldl_cons]
    refine (ih (loadStep d r)).trans ?_
    have h1 : (allIds (loadStep d r)).Perm (rowPid r :: allIds d) :=
      allIds_dictAppend d (r.name.getD "") (r.id.getD "") (splitCoords (r.coordinates.getD ""))
    refine (h1.append_right (t.map rowPid)).trans ?_
    rw [List.map_cons]
    exact List.perm_middle.symm

theorem allIds_load_stops (rows : List CsvRow) :
    (allIds (load_stops rows)).Perm ((keptRows rows).map rowPid) := by
  rw [load_stops_eq_foldl]
  have h := allIds_foldl (keptRows rows) []
  simpa [allIds] using h

/-- Claim C4 (amended): when the kept input rows carry pairwise
distinct identifiers, every such identifier appears in exactly one
StopRecord's identifier list (its total number of occurrences across
the catalog is one).  `load_stops` itself enforces no uniqueness: the
distinctness of the identifiers of the kept rows is an assumption on
the input table. -/
theorem load_stops_unique_amended (rows : List CsvRow)
    (h : ((keptRows rows).map rowPid).Nodup) (pid : String)
    (hmem : pid ∈ (keptRows rows).map rowPid) :
    (allIds (load_stops rows)).count pid = 1 := by
  rw [(allIds_load_stops rows).count_eq]
  exact List.count_eq_one_of_mem h hmem

/-- Rows with distinct identifiers for the C4 witness. -/
def c4okrows : List CsvRow :=
  [⟨some "1", some "A", some "0,0"⟩, ⟨some "2", some "A", some "1,1"⟩]

theorem load_stops_unique_amended_witness :
    (allIds (load_stops c4okrows)).count "1" = 1 :=
  load_stops_unique_amended c4okrows (by decide) "1" (by decide)

/-- A sample raw record with one decodable passing time. -/
def rec1 : RawRecord :=
  ⟨"1001", "7", some [⟨some 120, some ⟨some "ROGIER"⟩⟩]⟩

/-- A sample raw record whose payload fails to decode. -/
def rec2 : RawRecord :=
  ⟨"1002", "81", none⟩

/-- Claim C3: `absorb` is order-insensitive — reordering the same
multiset of raw records produces an equal content fingerprint (set of
serialized records), so neither the cache nor the fetch instant is
touched. -/
theorem absorb_reorder (st : PollState) (new_data : List RawRecord) (now : Int)
    (h : new_data.Perm st.raw_results) :
    absorb st new_data now = st := by
  simp [absorb, List.toFinset_eq_of_perm new_data st.raw_results h]

theorem absorb_reorder_witness :
    absorb ⟨[rec1, rec2], some 10⟩ [rec2, rec1] 100 = ⟨[rec1, rec2], some 10⟩ :=
  absorb_reorder ⟨[rec1, rec2], some 10⟩ [rec2, rec1] 100 (by decide)

/-- Claim C2 counterexample: with the cache holding exactly the records
the manual fetch returns (equal fingerprints, so `absorb` would leave
the state untouched — first conjunct), the Refresh-Now handler still
replaces the fetch instant: change-suppression is not applied on the
manual path. -/
theorem manual_refresh_cex :
    absorb ⟨[rec1], some 0⟩ [rec1] 5 = ⟨[rec1], some 0⟩ ∧
    manualRefresh ⟨[rec1], some 0⟩ [rec1] 5 = ⟨[rec1], some 5⟩ ∧
    manualRefresh ⟨[rec1], some 0⟩ [rec1] 5 ≠ ⟨[rec1], some 0⟩ := by decide

/-- Claim C2 (amended): the Refresh-Now handler replaces the cache and
`lastFetchInstant` unconditionally, without `absorb`'s
change-suppression; the auto-refresh branch running later in the same
tick then sees the fresh instant and leaves that state unchanged. -/
theorem manual_refresh_amended (st : PollState) (fm fa : List RawRecord) (now : Int) :
    buttonThenAuto st fm fa now = ⟨fm, some now⟩ := by
  simp [buttonThenAuto, manualRefresh, autoTick, REFRESH_SECONDS]

theorem processPT_eq_some (sd : List (String × StopRec)) (now max_seconds : Int)
    (pid line : String) (pt : RawPT) (row : Row) :
    processPT sd now max_seconds pid line pt = some row ↔
      ∃ arrival, pt.expectedArrivalTime = some arrival ∧
        0 < arrival - now ∧ arrival - now ≤ max_seconds ∧
        row = mkRow sd now pid line pt arrival := by
  cases hpt : pt.expectedArrivalTime with
  | none => simp [processPT, hpt]
  | some arrival =>
    simp only [processPT, hpt]
    by_cases hw : arrival - now > max_seconds ∨ arrival - now ≤ 0
    · rw [if_pos hw]
      constructor
      · intro h
        exact absurd h (by simp)
      · rintro ⟨a, ha, h1, h2, hrow⟩
        obtain rfl : arrival = a := Option.some.inj ha
        omega
    · rw [if_neg hw]
      push_neg at hw
      obtain ⟨hle, hpos⟩ := hw
      have hc1 : ¬(arrival - now ≤ 0 ∧ arrival - now ≥ -30) := by omega
      have hc2 : ¬(arrival - now > max_seconds ∨ arrival - now ≤ -30) := by omega
      rw [if_neg hc1, if_neg hc2]
      constructor
      · intro h
        exact ⟨arrival, rfl, by omega, hle, (Option.some.inj h).symm⟩
      · rintro ⟨a, ha, h1, h2, hrow⟩
        obtain rfl : arrival = a := Option.some.inj ha
        rw [hrow]
        rfl

theorem mem_processRecord (sd : List (String × StopRec)) (now max_seconds : Int)
    (r : RawRecord) (row : Row) :
    row ∈ processRecord sd now max_seconds r ↔
      ∃ pts, r.passingtimes = some pts ∧
        ∃ pt ∈ pts, processPT sd now max_seconds r.pointid r.lineid pt = some row := by
  cases h : r.passingtimes with
  | none => simp [processRecord, h]
  | some pts => simp [processRecord, h, List.mem_filterMap]

theorem mem_processAll_iff (sd : List (String × StopRec)) (now max_seconds : Int)
    (records : List RawRecord) (row : Row) :
    row ∈ processAll sd now max_seconds records ↔
      ∃ r ∈ records, ∃ pts, r.passingtimes = some pts ∧
        ∃ pt ∈ pts, processPT sd now max_seconds r.pointid r.lineid pt = some row := by
  simp [processAll, List.mem_flatMap, mem_processRecord]

theorem processAll_bounds (sd : List (String × StopRec)) (now max_seconds : Int)
    (records : List RawRecord) (row : Row)
    (h : row ∈ processAll sd now max_seconds records) :
    0 < row.secondsLeft ∧ row.secondsLeft ≤ max_seconds ∧
      row.timeLeft = fmtWait row.secondsLeft := by
  rw [mem_processAll_iff] at h
  obtain ⟨r, _, pts, _, pt, _, hp⟩ := h
  rw [processPT_eq_some] at hp
  obtain ⟨a, _, h1, h2, rfl⟩ := hp
  exact ⟨h1, h2, rfl⟩

theorem fmtWait_ne_due (w : Int) : fmtWait w ≠ "⬇⬇" := by
  intro h
  have h1 : (fmtWait w).data.getLast? = some 's' := by
    have hd : (fmtWait w).data
        = (toString (w.fdiv 60) ++ "m " ++ toString (w.fmod 60)).data ++ "s".data := by
      rw [fmtWait, String.data_append]
    rw [hd, List.getLast?_append]
    have hs : ("s" : String).data.getLast? = some 's' := by decide
    rw [hs]
    rfl
  rw [h] at h1
  exact absurd h1 (by decide)

/-- Claim C9: the negative-grace-window display is unreachable — every
row emitted by the processing loop has strictly positive seconds left
within the window, its Time Left string is the "Xm Ys" rendering of its
seconds left, and in particular it is never the "⬇⬇" marker, because
every arrival with non-positive wait is filtered out before the marker
branch is evaluated. -/
theorem no_due_marker (sd : List (String × StopRec)) (now m : Int)
    (records : List RawRecord) (row : Row)
    (h : row ∈ processAll sd now (m * 60) records) :
    0 < row.secondsLeft ∧ row.secondsLeft ≤ m * 60 ∧
      row.timeLeft = fmtWait row.secondsLeft ∧ row.timeLeft ≠ "⬇⬇" := by
  obtain ⟨h1, h2, h3⟩ := processAll_bounds sd now (m * 60) records row h
  refine ⟨h1, h2, h3, ?_⟩
  rw [h3]
  exact fmtWait_ne_due row.secondsLeft

/-- The catalog used by the concrete witnesses. -/
def sd0 : List (String × StopRec) :=
  [("LEVURE", ⟨["1001", "1002"], [["50", "4"], ["50", "4"]]⟩)]

/-- The row the pipeline builds from `rec1` at instant 0. -/
def row0 : Row :=
  ⟨"LEVURE", "7", "ROGIER", 120, "2m 0s", 120⟩

theorem no_due_marker_witness :
    0 < row0.secondsLeft ∧ row0.secondsLeft ≤ 15 * 60 ∧
      row0.timeLeft = fmtWait row0.secondsLeft ∧ row0.timeLeft ≠ "⬇⬇" :=
  no_due_marker sd0 0 15 [rec1] row0 (by decide)

/-- Claim C6: a raw record whose passing-times payload fails to decode
is skipped whole — removing it from any position of the fetch leaves
the processed output unchanged, so the other records are still
processed and no failure escapes (the embedding is total) — and within
a decoded record an entry whose timestamp fails to parse is skipped
without affecting the rows of the record's other entries. -/
theorem decode_failure_skips (sd : List (String × StopRec)) (now max_seconds : Int) :
    (∀ (pre post : List RawRecord) (rbad : RawRecord), rbad.passingtimes = none →
        processAll sd now max_seconds (pre ++ rbad :: post)
          = processAll sd now max_seconds (pre ++ post)) ∧
    (∀ (pid line : String) (pre post : List RawPT) (ptbad : RawPT),
        ptbad.expectedArrivalTime = none →
        (pre ++ ptbad :: post).filterMap (processPT sd now max_seconds pid line)
          = (pre ++ post).filterMap (processPT sd now max_seconds pid line)) := by
  constructor
  · intro pre post rbad hb
    simp [processAll, List.flatMap_append, List.flatMap_cons, processRecord, hb]
  · intro pid line pre post ptbad hb
    simp [List.filterMap_append, List.filterMap_cons, processPT, hb]

/-- A passing-time entry whose timestamp fails to parse. -/
def ptBad : RawPT :=
  ⟨none, some ⟨some "X"⟩⟩

/-- The decodable passing-time entry of `rec1`. -/
def ptGood : RawPT :=
  ⟨some 120, some ⟨some "ROGIER"⟩⟩

theorem decode_failure_skips_witness :
    processAll sd0 0 900 [rec2, rec1] = processAll sd0 0 900 [rec1] ∧
    [ptBad, ptGood].filterMap (processPT sd0 0 900 "1001" "7")
      = [ptGood].filterMap (processPT sd0 0 900 "1001" "7") :=
  ⟨(decode_failure_skips sd0 0 900).1 [] [rec1] rec2 rfl,
   (decode_failure_skips sd0 0 900).2 "1001" "7" [] [ptGood] ptBad rfl⟩

/-- Claim C10: an entry whose destination field is missing, or whose
destination lacks the French label, is not skipped on that account:
when its timestamp parses and it passes the window filter it is emitted
with destination text "Unknown". -/
theorem destination_fallback (sd : List (String × StopRec)) (now max_seconds : Int)
    (pid line : String) (pt : RawPT) (arrival : Int)
    (ha : pt.expectedArrivalTime = some arrival)
    (hdest : pt.destination = none ∨ ∃ d, pt.destination = some d ∧ d.fr = none)
    (h1 : 0 < arrival - now) (h2 : arrival - now ≤ max_seconds) :
    processPT sd now max_seconds pid line pt
      = some ⟨resolveStop sd pid, line, "Unknown", arrival,
          fmtWait (arrival - now), arrival - now⟩ := by
  have hU : destFr pt = "Unknown" := by
    rcases hdest with h | ⟨d, hd, hfr⟩
    · simp [destFr, h]
    · simp [destFr, hd, hfr]
  rw [processPT_eq_some]
  exact ⟨arrival, ha, h1, h2, by simp [mkRow, hU]⟩

/-- An entry with no destination field at all. -/
def ptNoDest : RawPT :=
  ⟨some 120, none⟩

theorem destination_fallback_witness :
    processPT sd0 0 900 "1001" "7" ptNoDest
      = some ⟨resolveStop sd0 "1001", "7", "Unknown", 120,
          fmtWait (120 - 0), 120 - 0⟩ :=
  destination_fallback sd0 0 900 "1001" "7" ptNoDest 120 rfl (Or.inl rfl)
    (by decide) (by decide)

theorem mem_presentStop (sd : List (String × StopRec)) (now max_seconds : Int)
    (records : List RawRecord) (selected_lines : List String) (s : String) (row : Row) :
    row ∈ presentStop sd now max_seconds records selected_lines s ↔
      row ∈ processAll sd now max_seconds records ∧ row.stop = s ∧
        row.line ∈ selected_lines := by
  rw [presentStop, (List.perm_insertionSort rowLe _).mem_iff]
  simp only [List.mem_filter, groupedGet, decide_eq_true_eq]
  tauto

theorem mem_displayedRows (sd : List (String × StopRec)) (now max_seconds : Int)
    (records : List RawRecord) (selected_stops selected_lines : List String) (row : Row) :
    row ∈ displayedRows sd now max_seconds records selected_stops selected_lines ↔
      ∃ s ∈ selected_stops,
        row ∈ presentStop sd now max_seconds records selected_lines s := by
  simp [displayedRows, present, List.mem_flatMap, List.mem_map]

/-- Claim C1: the row built from a normalized arrival appears in the
Presenter's output exactly when its resolved stop name is among the
selected stops, its seconds left satisfy `0 < secondsLeft ≤
maxMinutes*60`, and its line is among the selected lines; arrivals with
non-positive seconds left are excluded entirely. -/
theorem present_filter_correct (sd : List (String × StopRec)) (now m : Int)
    (records : List RawRecord) (selected_stops selected_lines : List String)
    (r : RawRecord) (pts : List RawPT) (pt : RawPT) (arrival : Int)
    (hr : r ∈ records) (hpts : r.passingtimes = some pts) (hpt : pt ∈ pts)
    (ha : pt.expectedArrivalTime = some arrival) :
    mkRow sd now r.pointid r.lineid pt arrival ∈
        displayedRows sd now (m * 60) records selected_stops selected_lines ↔
      (resolveStop sd r.pointid ∈ selected_stops ∧
        (0 < arrival - now ∧ arrival - now ≤ m * 60) ∧
        r.lineid ∈ selected_lines) := by
  rw [mem_displayedRows]
  constructor
  · rintro ⟨s, hs, hmem⟩
    rw [mem_presentStop] at hmem
    obtain ⟨hall, hstop, hline⟩ := hmem
    have hb := processAll_bounds sd now (m * 60) records _ hall
    rw [← hstop] at hs
    exact ⟨hs, ⟨hb.1, hb.2.1⟩, hline⟩
  · rintro ⟨hstop, ⟨h1, h2⟩, hline⟩
    refine ⟨resolveStop sd r.pointid, hstop, ?_⟩
    rw [mem_presentStop]
    refine ⟨?_, rfl, hline⟩
    rw [mem_processAll_iff]
    exact ⟨r, hr, pts, hpts, pt, hpt,
      (processPT_eq_some sd now (m * 60) r.pointid r.lineid pt _).mpr
        ⟨arrival, ha, h1, h2, rfl⟩⟩

theorem present_filter_correct_witness :
    mkRow sd0 0 rec1.pointid rec1.lineid ptGood 120 ∈
        displayedRows sd0 0 (15 * 60) [rec1] ["LEVURE"] ["7"] ↔
      (resolveStop sd0 rec1.pointid ∈ (["LEVURE"] : List String) ∧
        (0 < (120 : Int) - 0 ∧ (120 : Int) - 0 ≤ 15 * 60) ∧
        rec1.lineid ∈ (["7"] : List String)) :=
  present_filter_correct sd0 0 15 [rec1] ["LEVURE"] ["7"] rec1 [ptGood] ptGood 120
    (by decide) rfl (by decide) rfl

/-- Claim C7: for every stop in the Presenter's output, the display
rows are sorted non-decreasing by seconds left. -/
theorem present_sorted (sd : List (String × StopRec)) (now max_seconds : Int)
    (records : List RawRecord) (selected_stops selected_lines : List String)
    (s : String) (rows : List Row)
    (h : (s, rows) ∈ present sd now max_seconds records selected_stops selected_lines) :
    rows.Sorted (fun a b => a.secondsLeft ≤ b.secondsLeft) := by
  rw [present, List.mem_map] at h
  obtain ⟨stop, _, heq⟩ := h
  cases heq
  exact List.sorted_insertionSort rowLe _

/-- A record with two passing times out of arrival order, for the C7
witness. -/
def rec3 : RawRecord :=
  ⟨"1002", "81", some [⟨some 300, some ⟨some "B"⟩⟩, ⟨some 60, some ⟨some "C"⟩⟩]⟩

theorem present_sorted_witness :
    (presentStop sd0 0 900 [rec1, rec3] ["7", "81"] "LEVURE").Sorted
      (fun a b => a.secondsLeft ≤ b.secondsLeft) :=
  present_sorted sd0 0 900 [rec1, rec3] ["LEVURE"] ["7", "81"] "LEVURE"
    (presentStop sd0 0 900 [rec1, rec3] ["7", "81"] "LEVURE") (by decide)

theorem hsv_to_rgb_bounds (h s v : ℚ) (hs0 : 0 ≤ s) (hs1 : s ≤ 1) (hv0 : 0 ≤ v) :
    0 ≤ (hsv_to_rgb h s v).1 ∧ (hsv_to_rgb h s v).1 ≤ v ∧
    0 ≤ (hsv_to_rgb h s v).2.1 ∧ (hsv_to_rgb h s v).2.1 ≤ v ∧
    0 ≤ (hsv_to_rgb h s v).2.2 ∧ (hsv_to_rgb h s v).2.2 ≤ v := by
  have hf0 : (0 : ℚ) ≤ h * 6 - ((⌊h * 6⌋ : ℤ) : ℚ) := sub_nonneg.mpr (Int.floor_le _)
  have hf1 : h * 6 - ((⌊h * 6⌋ : ℤ) : ℚ) ≤ 1 := by
    have hlt := Int.lt_floor_add_one (h * 6)
    linarith
  have hp0 : 0 ≤ v * (1 - s) := mul_nonneg hv0 (by linarith)
  have hp1 : v * (1 - s) ≤ v := by nlinarith [mul_nonneg hv0 hs0]
  have hq0 : 0 ≤ v * (1 - s * (h * 6 - ((⌊h * 6⌋ : ℤ) : ℚ))) :=
    mul_nonneg hv0 (by nlinarith)
  have hq1 : v * (1 - s * (h * 6 - ((⌊h * 6⌋ : ℤ) : ℚ))) ≤ v := by
    nlinarith [mul_nonneg hv0 (mul_nonneg hs0 hf0)]
  have ht0 : 0 ≤ v * (1 - s * (1 - (h * 6 - ((⌊h * 6⌋ : ℤ) : ℚ)))) :=
    mul_nonneg hv0 (by nlinarith)
  have ht1 : v * (1 - s * (1 - (h * 6 - ((⌊h * 6⌋ : ℤ) : ℚ)))) ≤ v := by
    nlinarith [mul_nonneg hv0 (mul_nonneg hs0 (by linarith : (0 : ℚ) ≤ 1 - (h * 6 - ((⌊h * 6⌋ : ℤ) : ℚ))))]
  simp only [hsv_to_rgb]
  split_ifs
  · exact ⟨hv0, le_refl v, hv0, le_refl v, hv0, le_refl v⟩
  · exact ⟨hv0, le_refl v, ht0, ht1, hp0, hp1⟩
  · exact ⟨hq0, hq1, hv0, le_refl v, hp0, hp1⟩
  · exact ⟨hp0, hp1, hv0, le_refl v, ht0, ht1⟩
  · exact ⟨hp0, hp1, hq0, hq1, hv0, le_refl v⟩
  · exact ⟨ht0, ht1, hp0, hp1, hq0, hq1⟩
  · exact ⟨hv0, le_refl v, hp0, hp1, hq0, hq1⟩

theorem floorByte_bounds (c : ℚ) (h0 : 0 ≤ c) (h1 : c ≤ 2 / 5) :
    0 ≤ ⌊c * 255⌋ ∧ ⌊c * 255⌋ ≤ 255 := by
  constructor
  · exact Int.floor_nonneg.mpr (by nlinarith)
  · have hc : c * 255 ≤ (255 : ℚ) := by nlinarith
    have hm := Int.floor_mono hc
    have h255 : ⌊(255 : ℚ)⌋ = 255 := by norm_num
    omega

/-- Claim C8: the line color function is deterministic — equal
identifiers always give equal colors — and follows the fixed formula:
the stable digest of the identifier's textual form is reduced to a hue
in [0, 360) (then scaled into [0, 1)), saturation is fixed at 0.75 and
value at 0.40, the HSV triple is converted to RGB, and the output is
the hex triplet of the three bytes obtained from the RGB components
(each necessarily in [0, 255]). -/
theorem line_color_soft_spec (digest8 : String → Nat) (x : String) :
    line_color_soft digest8 x = line_color_soft digest8 x ∧
    digest8 x % 360 < 360 ∧
    ∃ r g b : Nat, r ≤ 255 ∧ g ≤ 255 ∧ b ≤ 255 ∧
      (r : ℤ) = ⌊(hsv_to_rgb (((digest8 x % 360 : Nat) : ℚ) / 360) (3 / 4) (2 / 5)).1 * 255⌋ ∧
      (g : ℤ) = ⌊(hsv_to_rgb (((digest8 x % 360 : Nat) : ℚ) / 360) (3 / 4) (2 / 5)).2.1 * 255⌋ ∧
      (b : ℤ) = ⌊(hsv_to_rgb (((digest8 x % 360 : Nat) : ℚ) / 360) (3 / 4) (2 / 5)).2.2 * 255⌋ ∧
      line_color_soft digest8 x = "#" ++ hex2 r ++ hex2 g ++ hex2 b := by
  refine ⟨rfl, Nat.mod_lt _ (by norm_num), ?_⟩
  obtain ⟨h10, h11, h20, h21, h30, h31⟩ :=
    hsv_to_rgb_bounds (((digest8 x % 360 : Nat) : ℚ) / 360) (3 / 4) (2 / 5)
      (by norm_num) (by norm_num) (by norm_num)
  obtain ⟨hf10, hf11⟩ := floorByte_bounds _ h10 h11
  obtain ⟨hf20, hf21⟩ := floorByte_bounds _ h20 h21
  obtain ⟨hf30, hf31⟩ := floorByte_bounds _ h30 h31
  refine ⟨(⌊(hsv_to_rgb (((digest8 x % 360 : Nat) : ℚ) / 360) (3 / 4) (2 / 5)).1 * 255⌋).toNat,
    (⌊(hsv_to_rgb (((digest8 x % 360 : Nat) : ℚ) / 360) (3 / 4) (2 / 5)).2.1 * 255⌋).toNat,
    (⌊(hsv_to_rgb (((digest8 x % 360 : Nat) : ℚ) / 360) (3 / 4) (2 / 5)).2.2 * 255⌋).toNat,
    ?_, ?_, ?_, ?_, ?_, ?_, rfl⟩
  · omega
  · omega
  · omega
  · rw [Int.toNat_of_nonneg hf10]
  · rw [Int.toNat_of_nonneg hf20]
  · rw [Int.toNat_of_nonneg hf30]

end Stib
